import Mathlib

/-!
Verification of the currency validator of `validator-rs` (`src/currency.rs`).

The Rust code synthesizes a regular expression from a `CurrencyOptions`
value (`build_currency_regex`), runs hand-written guard checks
(`validate_currency_manual`), and combines both in `is_currency`.

We embed the synthesized pattern as a regular-expression AST (`Rx`) whose
shape mirrors, node by node, the pattern string the Rust code assembles,
and give it the standard semantics (`Matches`) together with an executable
Brzozowski-derivative matcher (`fullMatch`), proved equivalent.  The Rust
`Regex::is_match` call runs the pattern anchored as `^...$`, i.e. a
whole-string match, which is exactly `fullMatch`.

Modelling notes:
* `\d` is modelled as the ASCII digit class `[0-9]`.  The Rust `regex`
  crate's `\d` also matches non-ASCII Unicode decimal digits; every
  concrete input examined here is ASCII, and the one structural proof
  about the pattern (the required-symbol property) does not depend on
  what the digit class matches.
* `regex::escape` and the separator escaping make every symbol/separator
  character a literal, so they are embedded as literal characters.
  (For exotic non-ASCII separators the real `Regex::new` can reject the
  pattern, in which case `is_currency` returns `false`; this only ever
  turns a "no match, false" into an "error, false" and is not modelled.)
-/

/-- Regular-expression AST: empty language, empty string, a single literal
character, a character range class, concatenation, alternation, Kleene star. -/
inductive Rx where
  | emp : Rx
  | eps : Rx
  | ch (c : Char) : Rx
  | cls (lo hi : Char) : Rx
  | cat (a b : Rx) : Rx
  | alt (a b : Rx) : Rx
  | star (a : Rx) : Rx
deriving DecidableEq, Repr

/-- Standard semantics of the regular-expression AST. -/
inductive Matches : Rx → List Char → Prop where
  | eps : Matches .eps []
  | ch (c : Char) : Matches (.ch c) [c]
  | cls {lo hi : Char} (c : Char) (h1 : lo ≤ c) (h2 : c ≤ hi) :
      Matches (.cls lo hi) [c]
  | cat {a b : Rx} {s t : List Char} (ha : Matches a s) (hb : Matches b t) :
      Matches (.cat a b) (s ++ t)
  | altL {a b : Rx} {s : List Char} (h : Matches a s) : Matches (.alt a b) s
  | altR {a b : Rx} {s : List Char} (h : Matches b s) : Matches (.alt a b) s
  | starNil {a : Rx} : Matches (.star a) []
  | starCons {a : Rx} {s t : List Char} (hh : Matches a s)
      (ht : Matches (.star a) t) : Matches (.star a) (s ++ t)

/-- Nullability: does the pattern match the empty string? -/
def nullable : Rx → Bool
  | .emp => false
  | .eps => true
  | .ch _ => false
  | .cls _ _ => false
  | .cat a b => nullable a && nullable b
  | .alt a b => nullable a || nullable b
  | .star _ => true

/-- Smart concatenation constructor, simplifying around `emp` and `eps`
so that derivatives stay small. -/
def catS (a b : Rx) : Rx :=
  if a = .emp ∨ b = .emp then .emp
  else if a = .eps then b
  else if b = .eps then a
  else .cat a b

/-- Smart alternation constructor, simplifying around `emp`. -/
def altS (a b : Rx) : Rx :=
  if a = .emp then b
  else if b = .emp then a
  else .alt a b

/-- Brzozowski derivative of a pattern with respect to one character. -/
def rderiv : Rx → Char → Rx
  | .emp, _ => .emp
  | .eps, _ => .emp
  | .ch c, x => if x = c then .eps else .emp
  | .cls lo hi, x => if lo ≤ x ∧ x ≤ hi then .eps else .emp
  | .cat a b, x =>
      if nullable a then altS (catS (rderiv a x) b) (rderiv b x)
      else catS (rderiv a x) b
  | .alt a b, x => altS (rderiv a x) (rderiv b x)
  | .star a, x => catS (rderiv a x) (.star a)

/-- Executable whole-string matcher: fold the derivative over the input and
test nullability.  This models `Regex::is_match` on a `^...$`-anchored
pattern. -/
def fullMatch (r : Rx) (v : List Char) : Bool :=
  nullable (v.foldl rderiv r)

theorem matches_emp_elim {s : List Char} (h : Matches .emp s) : False := by
  cases h

theorem matches_eps_elim {s : List Char} (h : Matches .eps s) : s = [] := by
  cases h; rfl

/-- Soundness of `nullable`. -/
theorem nullable_sound : ∀ {r : Rx}, nullable r = true → Matches r [] := by
  intro r
  induction r with
  | emp => intro h; simp [nullable] at h
  | eps => intro _; exact .eps
  | ch c => intro h; simp [nullable] at h
  | cls lo hi => intro h; simp [nullable] at h
  | cat a b iha ihb =>
      intro h
      simp only [nullable, Bool.and_eq_true] at h
      exact (List.nil_append ([] : List Char) ▸ Matches.cat (iha h.1) (ihb h.2))
  | alt a b iha ihb =>
      intro h
      simp only [nullable, Bool.or_eq_true] at h
      rcases h with h | h
      · exact .altL (iha h)
      · exact .altR (ihb h)
  | star a _ => intro _; exact .starNil

theorem nullable_complete_aux {r : Rx} {v : List Char} (h : Matches r v) :
    v = [] → nullable r = true := by
  induction h with
  | eps => intro _; rfl
  | ch c => intro h; simp at h
  | cls c h1 h2 => intro h; simp at h
  | cat ha hb iha ihb =>
      intro h
      rcases List.append_eq_nil.mp h with ⟨h1, h2⟩
      simp only [nullable, Bool.and_eq_true]
      exact ⟨iha h1, ihb h2⟩
  | altL h ih =>
      intro he
      simp only [nullable, Bool.or_eq_true]
      exact Or.inl (ih he)
  | altR h ih =>
      intro he
      simp only [nullable, Bool.or_eq_true]
      exact Or.inr (ih he)
  | starNil => intro _; rfl
  | starCons hh ht ihh iht => intro _; rfl

/-- Completeness of `nullable`. -/
theorem nullable_complete {r : Rx} (h : Matches r []) : nullable r = true :=
  nullable_complete_aux h rfl

theorem altS_sound {a b : Rx} {s : List Char} (h : Matches (altS a b) s) :
    Matches (.alt a b) s := by
  unfold altS at h
  split_ifs at h with h1 h2
  · exact .altR h
  · exact .altL h
  · exact h

theorem altS_complete {a b : Rx} {s : List Char} (h : Matches (.alt a b) s) :
    Matches (altS a b) s := by
  unfold altS
  split_ifs with h1 h2
  · subst h1
    cases h with
    | altL h => exact absurd h matches_emp_elim
    | altR h => exact h
  · subst h2
    cases h with
    | altL h => exact h
    | altR h => exact absurd h matches_emp_elim
  · exact h

theorem catS_sound {a b : Rx} {s : List Char} (h : Matches (catS a b) s) :
    Matches (.cat a b) s := by
  unfold catS at h
  split_ifs at h with h1 h2 h3
  · exact absurd h matches_emp_elim
  · subst h2
    exact (List.nil_append s ▸ Matches.cat Matches.eps h)
  · subst h3
    exact (List.append_nil s ▸ Matches.cat h Matches.eps)
  · exact h

theorem catS_complete {a b : Rx} {s : List Char} (h : Matches (.cat a b) s) :
    Matches (catS a b) s := by
  unfold catS
  split_ifs with h1 h2 h3
  · exfalso
    rcases h1 with h1 | h1 <;> subst h1 <;> cases h with
    | cat ha hb => first
      | exact matches_emp_elim ha
      | exact matches_emp_elim hb
  · subst h2
    cases h with
    | cat ha hb =>
        rw [matches_eps_elim ha, List.nil_append]
        exact hb
  · subst h3
    cases h with
    | cat ha hb =>
        rw [matches_eps_elim hb, List.append_nil]
        exact ha
  · exact h

theorem star_split_aux {r : Rx} {v : List Char} (h : Matches r v) :
    ∀ {a : Rx}, r = .star a →
      v = [] ∨ ∃ s t, s ≠ [] ∧ v = s ++ t ∧ Matches a s ∧ Matches (.star a) t := by
  induction h with
  | eps => intro a h; simp at h
  | ch c => intro a h; simp at h
  | cls c h1 h2 => intro a h; simp at h
  | cat ha hb iha ihb => intro a h; simp at h
  | altL h ih => intro a h; simp at h
  | altR h ih => intro a h; simp at h
  | starNil => intro a _; exact Or.inl rfl
  | starCons hh ht ihh iht =>
      intro a heq
      injection heq with heq2
      subst heq2
      rename_i s t
      by_cases hs : s = []
      · subst hs
        simpa using iht rfl
      · exact Or.inr ⟨s, t, hs, rfl, hh, ht⟩

/-- Matching after taking a derivative implies matching the extended word. -/
theorem rderiv_sound : ∀ {r : Rx} {c : Char} {s : List Char},
    Matches (rderiv r c) s → Matches r (c :: s) := by
  intro r
  induction r with
  | emp => intro c s h; exact absurd h matches_emp_elim
  | eps =>
      intro c s h
      simp only [rderiv] at h
      exact absurd h matches_emp_elim
  | ch c0 =>
      intro c s h
      simp only [rderiv] at h
      by_cases hc : c = c0
      · rw [if_pos hc] at h
        rw [matches_eps_elim h, hc]
        exact .ch c0
      · rw [if_neg hc] at h
        exact absurd h matches_emp_elim
  | cls lo hi =>
      intro c s h
      simp only [rderiv] at h
      by_cases hc : lo ≤ c ∧ c ≤ hi
      · rw [if_pos hc] at h
        rw [matches_eps_elim h]
        exact .cls c hc.1 hc.2
      · rw [if_neg hc] at h
        exact absurd h matches_emp_elim
  | cat a b iha ihb =>
      intro c s h
      simp only [rderiv] at h
      by_cases hn : nullable a
      · rw [if_pos hn] at h
        cases altS_sound h with
        | altL h1 =>
            cases catS_sound h1 with
            | cat ha hb => exact Matches.cat (iha ha) hb
        | altR h1 =>
            have := Matches.cat (nullable_sound hn) (ihb h1)
            simpa using this
      · rw [if_neg hn] at h
        cases catS_sound h with
        | cat ha hb => exact Matches.cat (iha ha) hb
  | alt a b iha ihb =>
      intro c s h
      simp only [rderiv] at h
      cases altS_sound h with
      | altL h1 => exact .altL (iha h1)
      | altR h1 => exact .altR (ihb h1)
  | star a iha =>
      intro c s h
      simp only [rderiv] at h
      cases catS_sound h with
      | cat ha hb => exact Matches.starCons (iha ha) hb

/-- Matching an extended word implies matching after the derivative. -/
theorem rderiv_complete : ∀ {r : Rx} {c : Char} {s : List Char},
    Matches r (c :: s) → Matches (rderiv r c) s := by
  intro r
  induction r with
  | emp => intro c s h; exact absurd h matches_emp_elim
  | eps =>
      intro c s h
      have := matches_eps_elim h
      simp at this
  | ch c0 =>
      intro c s h
      cases h
      simp only [rderiv, if_pos rfl]
      exact .eps
  | cls lo hi =>
      intro c s h
      cases h with
      | cls _ h1 h2 =>
          simp only [rderiv]
          rw [if_pos ⟨h1, h2⟩]
          exact .eps
  | cat a b iha ihb =>
      intro c s h
      simp only [rderiv]
      generalize hv : (c :: s : List Char) = v0 at h
      cases h with
      | cat ha hb =>
          rename_i s1 s2
          cases s1 with
          | nil =>
              rw [List.nil_append] at hv
              rw [← hv] at hb
              have hn : nullable a = true := nullable_complete ha
              rw [if_pos hn]
              exact altS_complete (.altR (ihb hb))
          | cons x xs =>
              rw [List.cons_append] at hv
              injection hv with he1 he2
              subst he1
              subst he2
              have hcat : Matches (catS (rderiv a c) b) (xs ++ s2) :=
                catS_complete (Matches.cat (iha ha) hb)
              by_cases hn : nullable a
              · rw [if_pos hn]
                exact altS_complete (.altL hcat)
              · rw [if_neg hn]
                exact hcat
  | alt a b iha ihb =>
      intro c s h
      simp only [rderiv]
      cases h with
      | altL h1 => exact altS_complete (.altL (iha h1))
      | altR h1 => exact altS_complete (.altR (ihb h1))
  | star a iha =>
      intro c s h
      rcases star_split_aux h rfl with heq | ⟨s1, t, hne, heqv, hs1, ht⟩
      · simp at heq
      · cases s1 with
        | nil => exact absurd rfl hne
        | cons x xs =>
            rw [List.cons_append] at heqv
            injection heqv with he1 he2
            subst he1
            simp only [rderiv]
            apply catS_complete
            rw [he2]
            exact Matches.cat (iha hs1) ht

/-- Correctness of the executable matcher with respect to the semantics. -/
theorem fullMatch_iff_matches :
    ∀ {v : List Char} {r : Rx}, fullMatch r v = true ↔ Matches r v := by
  intro v
  induction v with
  | nil => intro r; exact ⟨nullable_sound, nullable_complete⟩
  | cons c v ih =>
      intro r
      constructor
      · intro h
        exact rderiv_sound (ih.mp h)
      · intro h
        exact ih.mpr (rderiv_complete h)

/-! ## List-of-character string helpers

These model the `str` operations the Rust guard checks use
(`starts_with`, `ends_with`, `contains`, `trim_end_matches`). -/

/-- Boolean test that `p` occurs at the very front of `v`
(Rust `str::starts_with`). -/
def startsWithSeq : List Char → List Char → Bool
  | [], _ => true
  | _ :: _, [] => false
  | p :: ps, c :: cs => p == c && startsWithSeq ps cs

/-- Boolean test that `p` occurs at the very end of `v`
(Rust `str::ends_with`). -/
def endsWithSeq (p v : List Char) : Bool :=
  startsWithSeq p.reverse v.reverse

/-- Boolean substring test (Rust `str::contains`). -/
def containsSeq (p : List Char) : List Char → Bool
  | [] => p.isEmpty
  | c :: cs => startsWithSeq p (c :: cs) || containsSeq p cs

/-- One step of suffix stripping plus a fuel bound.  Each successful step
removes a non-empty suffix, so `v.length` steps of fuel are always enough;
the fuel only makes the recursion structural. -/
def trimEndAux (suf : List Char) : Nat → List Char → List Char
  | 0, v => v
  | n + 1, v =>
      if !suf.isEmpty && endsWithSeq suf v then
        trimEndAux suf n (v.take (v.length - suf.length))
      else v

/-- Rust `str::trim_end_matches` with a string pattern: repeatedly remove
the suffix `suf` while it is present (no-op for the empty pattern). -/
def trimEndMatches (suf v : List Char) : List Char :=
  trimEndAux suf v.length v

/-- Rust `str::trim_end_matches` with a `char` pattern: remove every
trailing occurrence of the character. -/
def trimEndChar (c : Char) (v : List Char) : List Char :=
  (v.reverse.dropWhile (fun x => x == c)).reverse

/-- Modelled from the spec: remove at most one trailing occurrence of
`suf` (§4.3 check 7 speaks of "stripping one trailing symbol occurrence
and one trailing closing-parenthesis"; the code strips repeatedly, so this
definition exists only to state that spec reading). -/
def stripOneSuffix (suf v : List Char) : List Char :=
  if !suf.isEmpty && endsWithSeq suf v then v.take (v.length - suf.length) else v

/-! ## The data model: `CurrencyOptions` (currency.rs lines 12-66) -/

/-- Mirror of the Rust `CurrencyOptions` struct.  The symbol is kept as a
character list, separators as single characters, exactly as in the source. -/
structure CurrencyOptions where
  symbol : List Char
  require_symbol : Bool
  allow_space_after_symbol : Bool
  symbol_after_digits : Bool
  allow_negatives : Bool
  parens_for_negatives : Bool
  negative_sign_before_digits : Bool
  negative_sign_after_digits : Bool
  allow_negative_sign_placeholder : Bool
  thousands_separator : Char
  decimal_separator : Char
  allow_decimal : Bool
  require_decimal : Bool
  digits_after_decimal : List Nat
  allow_space_after_digits : Bool

/-- Mirror of `impl Default for CurrencyOptions` (lines 46-66). -/
def CurrencyOptions.default : CurrencyOptions where
  symbol := String.toList "$"
  require_symbol := false
  allow_space_after_symbol := false
  symbol_after_digits := false
  allow_negatives := true
  parens_for_negatives := false
  negative_sign_before_digits := false
  negative_sign_after_digits := false
  allow_negative_sign_placeholder := false
  thousands_separator := ','
  decimal_separator := '.'
  allow_decimal := true
  require_decimal := false
  digits_after_decimal := [2]
  allow_space_after_digits := false

/-! ## Pattern synthesis: `build_currency_regex` (lines 167-266)

Each definition below embeds one local pattern fragment of the Rust
function; a `format!` concatenation becomes `Rx.cat`, a `|` inside a group
becomes `Rx.alt`, a trailing `?` becomes `ropt`.  Every alternation the
Rust code writes is enclosed in a group in the pattern string, so this
tree-shaped reading of the flat string is faithful. -/

/-- Literal word: each character of an escaped symbol matches itself. -/
def lit : List Char → Rx
  | [] => .eps
  | c :: cs => .cat (.ch c) (lit cs)

/-- Pattern `X?`. -/
def ropt (r : Rx) : Rx := .alt r .eps

/-- Pattern `\d` (ASCII reading, see the header note). -/
def digitRx : Rx := .cls '0' '9'

/-- Pattern `X{n}`. -/
def repExact (r : Rx) : Nat → Rx
  | 0 => .eps
  | n + 1 => .cat r (repExact r n)

/-- Pattern `X{0,n}`. -/
def repAtMost (r : Rx) : Nat → Rx
  | 0 => .eps
  | n + 1 => .alt .eps (.cat r (repAtMost r n))

/-- Left fold of `|` over a list, mirroring the loop that pushes
`|\d{k}` for each further digit count (lines 169-172). -/
def altList (r : Rx) : List Rx → Rx
  | [] => r
  | x :: xs => altList (.alt r x) xs

/-- Lines 169-172: `\d{d0}|\d{d1}|...` over the digit counts; the Rust
code indexes `digits_after_decimal[0]`, so the head is a parameter here
and `build_currency_regex` panics when the list is empty. -/
def decimal_digits_rx (d0 : Nat) (rest : List Nat) : Rx :=
  altList (repExact digitRx d0) (rest.map (repExact digitRx))

/-- Lines 176-182: `(ESCAPED_SYMBOL)` with `?` unless the symbol is
required.  `regex::escape` makes the symbol purely literal. -/
def symbol_rx (o : CurrencyOptions) : Rx :=
  if o.require_symbol then lit o.symbol else ropt (lit o.symbol)

/-- Line 184: `-?`. -/
def negative_rx : Rx := ropt (.ch '-')

/-- Line 185: `[1-9]\d*`. -/
def whole_dollar_amount_without_sep : Rx :=
  .cat (.cls '1' '9') (.star digitRx)

/-- Lines 188-196: `[1-9]\d{0,2}(SEP\d{3})*` with the (escaped, hence
literal) thousands separator. -/
def whole_dollar_amount_with_sep (o : CurrencyOptions) : Rx :=
  .cat (.cls '1' '9')
    (.cat (repAtMost digitRx 2)
      (.star (.cat (.ch o.thousands_separator) (repExact digitRx 3))))

/-- Lines 198-204: `(0|[1-9]\d*|[1-9]\d{0,2}(SEP\d{3})*)?`. -/
def whole_dollar_amount (o : CurrencyOptions) : Rx :=
  ropt (.alt (.ch '0')
    (.alt whole_dollar_amount_without_sep (whole_dollar_amount_with_sep o)))

/-- Lines 214-219: `(DECSEP(DIGITS))` with `?` unless decimals are
required (the decimal separator is escaped, hence literal). -/
def decimal_amount (o : CurrencyOptions) (d0 : Nat) (rest : List Nat) : Rx :=
  if o.require_decimal then
    .cat (.ch o.decimal_separator) (decimal_digits_rx d0 rest)
  else
    ropt (.cat (.ch o.decimal_separator) (decimal_digits_rx d0 rest))

/-- Lines 221-224: whole amount, then the decimal fragment if decimals
are allowed or required. -/
def pattern_base (o : CurrencyOptions) (d0 : Nat) (rest : List Nat) : Rx :=
  if o.allow_decimal || o.require_decimal then
    .cat (whole_dollar_amount o) (decimal_amount o d0 rest)
  else whole_dollar_amount o

/-- Lines 227-233: sign placement next to the digits in the
non-parenthetical case. -/
def pattern_signed (o : CurrencyOptions) (d0 : Nat) (rest : List Nat) : Rx :=
  if o.allow_negatives && !o.parens_for_negatives then
    if o.negative_sign_after_digits then .cat (pattern_base o d0 rest) negative_rx
    else if o.negative_sign_before_digits then .cat negative_rx (pattern_base o d0 rest)
    else pattern_base o d0 rest
  else pattern_base o d0 rest

/-- Lines 236-243: spacing modifiers, first match wins:
`( ?-?)?P`, else ` ?P`, else `P ?`. -/
def pattern_spaced (o : CurrencyOptions) (d0 : Nat) (rest : List Nat) : Rx :=
  if o.allow_negative_sign_placeholder then
    .cat (ropt (.cat (ropt (.ch ' ')) (ropt (.ch '-')))) (pattern_signed o d0 rest)
  else if o.allow_space_after_symbol then
    .cat (ropt (.ch ' ')) (pattern_signed o d0 rest)
  else if o.allow_space_after_digits then
    .cat (pattern_signed o d0 rest) (ropt (.ch ' '))
  else pattern_signed o d0 rest

/-- Lines 246-250: symbol attached after or before the amount. -/
def pattern_with_symbol (o : CurrencyOptions) (d0 : Nat) (rest : List Nat) : Rx :=
  if o.symbol_after_digits then .cat (pattern_spaced o d0 rest) (symbol_rx o)
  else .cat (symbol_rx o) (pattern_spaced o d0 rest)

/-- Lines 252-260: `(\(P\)|P)` in parentheses mode, else a plain leading
`-?` when no explicit before/after placement was chosen. -/
def pattern_final (o : CurrencyOptions) (d0 : Nat) (rest : List Nat) : Rx :=
  if o.allow_negatives then
    if o.parens_for_negatives then
      .alt (.cat (.ch '(') (.cat (pattern_with_symbol o d0 rest) (.ch ')')))
        (pattern_with_symbol o d0 rest)
    else if !o.negative_sign_before_digits && !o.negative_sign_after_digits then
      .cat negative_rx (pattern_with_symbol o d0 rest)
    else pattern_with_symbol o d0 rest
  else pattern_with_symbol o d0 rest

/-- Outcome of `build_currency_regex`: either a pattern, or the panic the
Rust code hits when it indexes `digits_after_decimal[0]` on an empty
vector (line 169). -/
inductive BuildResult where
  | panic : BuildResult
  | ok (r : Rx) : BuildResult
deriving DecidableEq

/-- Lines 167-266.  On an empty `digits_after_decimal` the Rust function
panics before ever reaching its `Result` return value; `Regex::new` on the
patterns built here succeeds (the claim-relevant configurations use plain
separators and small counts), so that is the only failure point modelled. -/
def build_currency_regex (o : CurrencyOptions) : BuildResult :=
  match o.digits_after_decimal with
  | [] => .panic
  | d0 :: rest => .ok (pattern_final o d0 rest)

/-! ## Guard checks: `validate_currency_manual` (lines 269-318) -/

/-- Mirror of `validate_currency_manual`, check for check and in order. -/
def validate_currency_manual (value : List Char) (o : CurrencyOptions) : Bool :=
  if value.isEmpty then false
  else if startsWithSeq [' '] value || endsWithSeq [' '] value then false
  else if startsWithSeq ['-', ' '] value then false
  else if !value.any (fun c => c.isDigit) then false
  else if (!o.allow_space_after_symbol && !o.allow_negative_sign_placeholder) &&
      containsSeq (o.symbol ++ [' ']) value then false
  else if (o.allow_negative_sign_placeholder && !o.allow_space_after_symbol) &&
      containsSeq (o.symbol ++ [' ', '-']) value then false
  else if (!o.allow_space_after_digits && !o.allow_negative_sign_placeholder) &&
      endsWithSeq [' '] (trimEndChar ')' (trimEndMatches o.symbol value)) then false
  else true

/-! ## The validator: `is_currency` (lines 339-351) -/

/-- Outcome of a call to `is_currency`: a boolean, or a panic propagated
from `build_currency_regex`. -/
inductive RunResult where
  | panic : RunResult
  | result (b : Bool) : RunResult
deriving DecidableEq

/-- Mirror of `is_currency`: the manual guards run first and short-circuit
to `false`; only then is the pattern built and matched against the whole
string. -/
def is_currency (value : List Char) (o : CurrencyOptions) : RunResult :=
  if !validate_currency_manual value o then .result false
  else
    match build_currency_regex o with
    | .ok r => .result (fullMatch r value)
    | .panic => .panic

/-! ## Bridging lemmas -/

theorem startsWithSeq_append {p s : List Char} (t : List Char)
    (h : startsWithSeq p s = true) : startsWithSeq p (s ++ t) = true := by
  induction p generalizing s with
  | nil => rfl
  | cons c cs ih =>
      cases s with
      | nil => simp [startsWithSeq] at h
      | cons x xs =>
          simp only [List.cons_append, startsWithSeq, Bool.and_eq_true] at h ⊢
          exact ⟨h.1, ih h.2⟩

theorem containsSeq_nil (v : List Char) : containsSeq [] v = true := by
  cases v with
  | nil => rfl
  | cons c cs => simp [containsSeq, startsWithSeq]

theorem containsSeq_append_left {w s : List Char} (t : List Char)
    (h : containsSeq w s = true) : containsSeq w (s ++ t) = true := by
  induction s with
  | nil =>
      simp only [containsSeq, List.isEmpty_iff] at h
      subst h
      exact containsSeq_nil t
  | cons c cs ih =>
      simp only [containsSeq, Bool.or_eq_true] at h
      rcases h with h | h
      · simp only [List.cons_append, containsSeq, Bool.or_eq_true]
        exact Or.inl (by simpa using startsWithSeq_append t h)
      · simp only [List.cons_append, containsSeq, Bool.or_eq_true]
        exact Or.inr (ih h)

theorem containsSeq_append_right {w t : List Char} (s : List Char)
    (h : containsSeq w t = true) : containsSeq w (s ++ t) = true := by
  induction s with
  | nil => simpa using h
  | cons c cs ih =>
      simp only [List.cons_append, containsSeq, Bool.or_eq_true]
      exact Or.inr ih

theorem startsWithSeq_self (w : List Char) : startsWithSeq w w = true := by
  induction w with
  | nil => rfl
  | cons c cs ih => simp [startsWithSeq, ih]

theorem containsSeq_self (w : List Char) : containsSeq w w = true := by
  cases w with
  | nil => rfl
  | cons c cs => simp [containsSeq, startsWithSeq_self]

theorem lit_matches : ∀ {w s : List Char}, Matches (lit w) s → s = w := by
  intro w
  induction w with
  | nil => intro s h; exact matches_eps_elim h
  | cons c cs ih =>
      intro s h
      cases h with
      | cat ha hb =>
          cases ha
          simp [ih hb]

/-- Every word matched by `r` has `w` as a substring. -/
def forcesSub (w : List Char) (r : Rx) : Prop :=
  ∀ s, Matches r s → containsSeq w s = true

theorem forcesSub_lit (w : List Char) : forcesSub w (lit w) := by
  intro s h
  rw [lit_matches h]
  exact containsSeq_self w

theorem forcesSub_cat_left {w : List Char} {a b : Rx} (h : forcesSub w a) :
    forcesSub w (.cat a b) := by
  intro s hm
  cases hm with
  | cat ha hb => exact containsSeq_append_left _ (h _ ha)

theorem forcesSub_cat_right {w : List Char} {a b : Rx} (h : forcesSub w b) :
    forcesSub w (.cat a b) := by
  intro s hm
  cases hm with
  | cat ha hb => exact containsSeq_append_right _ (h _ hb)

theorem forcesSub_alt {w : List Char} {a b : Rx} (h1 : forcesSub w a)
    (h2 : forcesSub w b) : forcesSub w (.alt a b) := by
  intro s hm
  cases hm with
  | altL h => exact h1 _ h
  | altR h => exact h2 _ h

/-- With `require_symbol` set, every word the synthesized pattern accepts
contains the symbol: the mandatory symbol fragment sits, concatenated, in
every branch of the final pattern. -/
theorem symbol_forced (o : CurrencyOptions) (d0 : Nat) (rest : List Nat)
    (hreq : o.require_symbol = true) :
    forcesSub o.symbol (pattern_final o d0 rest) := by
  have hsym : forcesSub o.symbol (symbol_rx o) := by
    unfold symbol_rx
    rw [if_pos hreq]
    exact forcesSub_lit o.symbol
  have hws : forcesSub o.symbol (pattern_with_symbol o d0 rest) := by
    unfold pattern_with_symbol
    split_ifs
    · exact forcesSub_cat_right hsym
    · exact forcesSub_cat_left hsym
  unfold pattern_final
  split_ifs
  · exact forcesSub_alt (forcesSub_cat_right (forcesSub_cat_left hws)) hws
  · exact forcesSub_cat_right hws
  · exact hws
  · exact hws

/-- A failed guard check short-circuits `is_currency` to `false` before
the pattern is ever built. -/
theorem is_currency_of_manual_false {v : List Char} {o : CurrencyOptions}
    (h : validate_currency_manual v o = false) :
    is_currency v o = .result false := by
  unfold is_currency
  rw [h]
  rfl

/-! ## Concrete option configurations named by the claims -/

/-- Default options with an empty `digits_after_decimal` list. -/
def optsEmptyDigits : CurrencyOptions :=
  { CurrencyOptions.default with
    digits_after_decimal := [] }

/-- Default options with `digits_after_decimal = [1, 3]`. -/
def optsDigits13 : CurrencyOptions :=
  { CurrencyOptions.default with
    digits_after_decimal := [1, 3] }

/-- Default options with parentheses for negatives. -/
def optsParens : CurrencyOptions :=
  { CurrencyOptions.default with
    parens_for_negatives := true }

/-- European style: euro symbol, dot grouping, comma decimals, space
after the symbol allowed. -/
def optsEuro : CurrencyOptions :=
  { CurrencyOptions.default with
    symbol := String.toList "€",
    thousands_separator := '.',
    decimal_separator := ',',
    allow_space_after_symbol := true }

/-- Sign after the digits, trailing space allowed, symbol after the
digits (used to exhibit an accepted string containing "- "). -/
def optsSignAfter : CurrencyOptions :=
  { CurrencyOptions.default with
    negative_sign_after_digits := true,
    allow_space_after_digits := true,
    symbol_after_digits := true }

/-- A legal but adversarial configuration: multi-character symbol "1 )",
parenthetical negatives, space as decimal separator with zero fraction
digits (used to separate one-strip from strip-all trailing-space checks). -/
def optsOddSymbol : CurrencyOptions :=
  { CurrencyOptions.default with
    symbol := String.toList "1 )",
    parens_for_negatives := true,
    decimal_separator := ' ',
    digits_after_decimal := [0] }

/-- Default options with the symbol required. -/
def optsRequireSymbol : CurrencyOptions :=
  { CurrencyOptions.default with
    require_symbol := true }

/-- Symbol required together with an empty digit-count list. -/
def optsRequireSymbolNoDigits : CurrencyOptions :=
  { CurrencyOptions.default with
    require_symbol := true,
    digits_after_decimal := [] }

/-! ## The claims -/

/-- C1: the spec promises that an empty `digitsAfterDecimal` makes grammar
construction fail and `isCurrency` return `false` for every input without
raising.  The code instead panics: line 169 indexes
`digits_after_decimal[0]` on the empty vector before the function can
return its `Result`, so on the input "1" (which passes every guard check)
the call panics instead of returning false. -/
theorem C1_empty_digits_panics :
    optsEmptyDigits.digits_after_decimal = [] ∧
    is_currency (String.toList "1") optsEmptyDigits = .panic := by
  decide

/-- C2 counterexample: the guard only rejects "- " at the very start of
the input (`value.starts_with("- ")`, line 281).  With the sign placed
after the digits, a trailing space allowed and the symbol after the
digits, the input "1- $" contains '-' immediately followed by ' ' yet is
accepted, refuting the claim that such inputs are always rejected. -/
theorem C2_counterexample :
    containsSeq ['-', ' '] (String.toList "1- $") = true ∧
    is_currency (String.toList "1- $") optsSignAfter = .result true := by
  decide

/-- C2 amended: for every options value, `is_currency` returns false for
any input that BEGINS with a literal negative sign immediately followed by
a space character. -/
theorem C2_amended_leading_sign_space (o : CurrencyOptions) (v : List Char)
    (h : startsWithSeq ['-', ' '] v = true) :
    is_currency v o = .result false := by
  apply is_currency_of_manual_false
  unfold validate_currency_manual
  split_ifs <;> simp_all

/-- C2 amended, witness at the input "- 1" with default options. -/
theorem C2_amended_witness :
    startsWithSeq ['-', ' '] (String.toList "- 1") = true ∧
    is_currency (String.toList "- 1") CurrencyOptions.default = .result false :=
  ⟨by decide, C2_amended_leading_sign_space CurrencyOptions.default _ (by decide)⟩

/-- C3: for every options value, `is_currency` returns false when the text
is empty, starts or ends with a plain space, or contains no decimal digit
(guard checks 1, 2 and 4 of `validate_currency_manual`). -/
theorem C3_trivial_rejections (o : CurrencyOptions) (v : List Char)
    (h : v = [] ∨ startsWithSeq [' '] v = true ∨ endsWithSeq [' '] v = true ∨
      v.any (fun c => c.isDigit) = false) :
    is_currency v o = .result false := by
  apply is_currency_of_manual_false
  unfold validate_currency_manual
  rcases h with h | h | h | h <;> split_ifs <;> simp_all

/-- C3 witness at the digit-free input "abc" with default options. -/
theorem C3_trivial_rejections_witness :
    (String.toList "abc").any (fun c => c.isDigit) = false ∧
    is_currency (String.toList "abc") CurrencyOptions.default = .result false :=
  ⟨by decide, C3_trivial_rejections CurrencyOptions.default _
    (Or.inr (Or.inr (Or.inr (by decide))))⟩

/-- One-strip trailing-space test as the spec words it for C4: strip at
most one trailing symbol occurrence and at most one trailing ')' and look
for a trailing space. -/
def c4OneStripValue : List Char :=
  stripOneSuffix [')'] (stripOneSuffix optsOddSymbol.symbol (String.toList "(1 )1 )"))

/-- C4 counterexample: the code strips ALL trailing symbol occurrences and
ALL trailing parentheses (`trim_end_matches`, lines 310-311), not one of
each.  With symbol "1 )", parenthetical negatives, decimal separator ' '
and zero fraction digits, the input "(1 )1 )" leaves the trailing space
"(1 " after one-strip as the claim words it, yet `is_currency` accepts it
(the strip-all computation reaches "(" instead), refuting the claim. -/
theorem C4_counterexample :
    optsOddSymbol.allow_space_after_digits = false ∧
    optsOddSymbol.allow_negative_sign_placeholder = false ∧
    endsWithSeq [' '] c4OneStripValue = true ∧
    is_currency (String.toList "(1 )1 )") optsOddSymbol = .result true := by
  decide

/-- C4 amended: with `allow_space_after_digits` and
`allow_negative_sign_placeholder` both false, `is_currency` returns false
whenever a trailing space remains after stripping ALL trailing occurrences
of the configured symbol and then ALL trailing closing parentheses. -/
theorem C4_amended_trailing_space (o : CurrencyOptions) (v : List Char)
    (h1 : o.allow_space_after_digits = false)
    (h2 : o.allow_negative_sign_placeholder = false)
    (h3 : endsWithSeq [' '] (trimEndChar ')' (trimEndMatches o.symbol v)) = true) :
    is_currency v o = .result false := by
  apply is_currency_of_manual_false
  unfold validate_currency_manual
  split_ifs <;> simp_all

/-- C4 amended, witness at the input "1 " with default options. -/
theorem C4_amended_witness :
    endsWithSeq [' ']
      (trimEndChar ')' (trimEndMatches CurrencyOptions.default.symbol
        (String.toList "1 "))) = true ∧
    is_currency (String.toList "1 ") CurrencyOptions.default = .result false :=
  ⟨by decide, C4_amended_trailing_space CurrencyOptions.default _ rfl rfl (by decide)⟩

/-- C5: with the default options, "$10,123.45" is accepted while
"$ 32.50" (space after the symbol) and "1.234" (grouping not in blocks of
three) are rejected. -/
theorem C5_default_options_examples :
    is_currency (String.toList "$10,123.45") CurrencyOptions.default = .result true ∧
    is_currency (String.toList "$ 32.50") CurrencyOptions.default = .result false ∧
    is_currency (String.toList "1.234") CurrencyOptions.default = .result false := by
  decide

/-- C6: with `digits_after_decimal = [1, 3]`, the fractional part must
have exactly one of the listed digit counts: "$10.5" and "$10.123" are
accepted, "$10.12" is rejected. -/
theorem C6_digit_count_alternation :
    is_currency (String.toList "$10.5") optsDigits13 = .result true ∧
    is_currency (String.toList "$10.12") optsDigits13 = .result false ∧
    is_currency (String.toList "$10.123") optsDigits13 = .result true := by
  decide

/-- C7: with `parens_for_negatives` set (and no before/after sign
placement), "(1,234.56)" is accepted and "-1,234.56" is rejected: the
final pattern is the alternation of the fully parenthesized and the fully
bare pattern, with no sign glyph. -/
theorem C7_parens_for_negatives :
    is_currency (String.toList "(1,234.56)") optsParens = .result true ∧
    is_currency (String.toList "-1,234.56") optsParens = .result false := by
  decide

/-- C9: with euro symbol, dot grouping, comma decimals and a space allowed
after the symbol, "€1.234,56" and "€ 1.234,56" are accepted while "€€500"
(doubled symbol) is rejected; the separators act as literals. -/
theorem C9_euro_options_examples :
    is_currency (String.toList "€1.234,56") optsEuro = .result true ∧
    is_currency (String.toList "€ 1.234,56") optsEuro = .result true ∧
    is_currency (String.toList "€€500") optsEuro = .result false := by
  decide

/-- C8: with `require_symbol`, an input lacking the symbol is never
accepted.  Two parts.  First, the claim fails literally at one edge: with
an empty `digits_after_decimal` list the call panics (the line-169 index
bug) instead of returning false, on the symbol-free input "1".  Second,
whenever the digit-count list is non-empty — so the pattern is actually
built — every options value with `require_symbol = true` rejects every
input that does not contain the symbol: the mandatory symbol literal sits
concatenated in every branch of the synthesized pattern, so a full-string
match forces the symbol to occur as a substring. -/
theorem C8_require_symbol :
    (containsSeq optsRequireSymbolNoDigits.symbol (String.toList "1") = false ∧
      is_currency (String.toList "1") optsRequireSymbolNoDigits = .panic) ∧
    ∀ (o : CurrencyOptions) (v : List Char), o.require_symbol = true →
      o.digits_after_decimal ≠ [] → containsSeq o.symbol v = false →
      is_currency v o = .result false := by
  constructor
  · exact ⟨by decide, by decide⟩
  · intro o v hreq hne hcon
    by_cases hm : validate_currency_manual v o = true
    · cases hd : o.digits_after_decimal with
      | nil => exact absurd hd hne
      | cons d0 rest =>
          have hfm : fullMatch (pattern_final o d0 rest) v = false := by
            by_contra hc
            rw [Bool.not_eq_false] at hc
            have hforce := symbol_forced o d0 rest hreq v (fullMatch_iff_matches.mp hc)
            rw [hforce] at hcon
            exact absurd hcon (by simp)
          unfold is_currency
          rw [hm]
          unfold build_currency_regex
          rw [hd]
          simp [hfm]
    · exact is_currency_of_manual_false (by simpa using hm)

/-- C8 witness: with the symbol required and the default non-empty digit
counts, the symbol-free "500" is rejected. -/
theorem C8_require_symbol_witness :
    optsRequireSymbol.require_symbol = true ∧
    containsSeq optsRequireSymbol.symbol (String.toList "500") = false ∧
    is_currency (String.toList "500") optsRequireSymbol = .result false :=
  ⟨rfl, by decide, C8_require_symbol.2 optsRequireSymbol _ rfl (by decide) (by decide)⟩

/-- Facts about an ASCII digit character needed to run the guard checks
symbolically: its bounds, and its disequality with the structural
characters of the default format. -/
theorem digit_char_facts {c : Char} (h : c.isDigit = true) :
    ('0' ≤ c ∧ c ≤ '9') ∧ (c == ' ') = false ∧ (' ' == c) = false ∧
    (c == '$') = false ∧ ('$' == c) = false ∧ (c == ')') = false ∧
    (')' == c) = false ∧ (c == '-') = false ∧ ('-' == c) = false := by
  obtain ⟨h1, h2⟩ : '0' ≤ c ∧ c ≤ '9' := by simpa [Char.isDigit] using h
  refine ⟨⟨h1, h2⟩, ?_, ?_, ?_, ?_, ?_, ?_, ?_, ?_⟩ <;>
    · rw [beq_eq_false_iff_ne]
      intro he
      subst he
      exact absurd h1 (by decide)

/-- C10: under the default options the whole-number part is optional —
the whole-amount alternation is wrapped as `(...)?` (line 204) — so every
string of the form decimal separator followed by two digits, optionally
preceded by a sign and/or the symbol, is accepted.  In particular ".03"
and "-$.99" are accepted (see the witness). -/
theorem C10_optional_whole_amount (sign sym : Bool) (d e : Char)
    (hd : d.isDigit = true) (he : e.isDigit = true) :
    is_currency ((if sign then ['-'] else []) ++ ((if sym then ['$'] else []) ++
      ['.', d, e])) CurrencyOptions.default = .result true := by
  obtain ⟨⟨hd1, hd2⟩, hdsp, hspd, hdds, hdsd, hdrp, hrpd, hdmi, hmid⟩ := digit_char_facts hd
  obtain ⟨⟨he1, he2⟩, hesp, hspe, heds, hdse, herp, hrpe, hemi, hmie⟩ := digit_char_facts he
  have hpat : build_currency_regex CurrencyOptions.default =
      .ok (.cat negative_rx (.cat (ropt (lit ['$']))
        (.cat (whole_dollar_amount CurrencyOptions.default)
          (ropt (.cat (.ch '.') (decimal_digits_rx 2 [])))))) := by rfl
  have h2 : Matches (decimal_digits_rx 2 []) [d, e] := by
    show Matches (.cat digitRx (.cat digitRx .eps)) [d, e]
    exact Matches.cat (Matches.cls d hd1 hd2)
      (Matches.cat (Matches.cls e he1 he2) Matches.eps)
  have hdec : Matches (.cat (whole_dollar_amount CurrencyOptions.default)
      (ropt (.cat (.ch '.') (decimal_digits_rx 2 [])))) ['.', d, e] :=
    Matches.cat (Matches.altR .eps)
      (Matches.altL (Matches.cat (Matches.ch '.') h2))
  have hsymm : Matches (ropt (lit ['$'])) (if sym then ['$'] else []) := by
    cases sym
    · exact Matches.altR .eps
    · exact Matches.altL (Matches.cat (Matches.ch '$') Matches.eps)
  have hneg : Matches negative_rx (if sign then ['-'] else []) := by
    cases sign
    · exact Matches.altR .eps
    · exact Matches.altL (Matches.ch '-')
  have hmat : Matches (.cat negative_rx (.cat (ropt (lit ['$']))
      (.cat (whole_dollar_amount CurrencyOptions.default)
        (ropt (.cat (.ch '.') (decimal_digits_rx 2 []))))))
      ((if sign then ['-'] else []) ++ ((if sym then ['$'] else []) ++ ['.', d, e])) :=
    Matches.cat hneg (Matches.cat hsymm hdec)
  have hman : validate_currency_manual ((if sign then ['-'] else []) ++
      ((if sym then ['$'] else []) ++ ['.', d, e])) CurrencyOptions.default = true := by
    cases sign <;> cases sym <;>
      simp [validate_currency_manual, startsWithSeq, endsWithSeq, containsSeq,
        trimEndMatches, trimEndAux, trimEndChar, CurrencyOptions.default,
        hdsp, hspd, hdds, hdsd, hdrp, hrpd, hdmi, hmid,
        hesp, hspe, heds, hdse, herp, hrpe, hemi, hmie, hd, he]
  unfold is_currency
  rw [hman, hpat]
  simp [fullMatch_iff_matches.mpr hmat]

/-- C10 witness: the two examples named by the claim, obtained by
instantiating the theorem at both sign/symbol combinations with digits. -/
theorem C10_optional_whole_amount_witness :
    is_currency (String.toList ".03") CurrencyOptions.default = .result true ∧
    is_currency (String.toList "-$.99") CurrencyOptions.default = .result true :=
  ⟨C10_optional_whole_amount false false '0' '3' (by decide) (by decide),
   C10_optional_whole_amount true true '9' '9' (by decide) (by decide)⟩
